import Mathlib

/-!
Verification of the Tyre Quotation application's core logic: the money/tax
calculator, the quote-number generator, the session gate, and the quote
store operations.  JavaScript numbers are modelled as exact rationals (ℚ);
`Math.round` is modelled as `⌊x + 1/2⌋`, its exact mathematical behaviour
on finite values (round half toward +∞).
-/

namespace TyreQuote

/-- `LineItem` from `types.ts`: one priced row of a quotation. -/
structure LineItem where
  id : String
  description : String
  quantity : ℚ
  unitAmount : ℚ
deriving DecidableEq

/-- Quote status from `types.ts`. -/
inductive Status where
  | Draft
  | Sent
  | Accepted
  | Rejected
deriving DecidableEq

/-- `Quotation` from `types.ts`. -/
structure Quotation where
  id : String
  quoteNumber : String
  date : String
  customerName : String
  customerPhone : String
  customerEmail : String
  customerAddress : String
  vehicleMake : String
  vehicleModel : String
  vehicleYear : String
  lineItems : List LineItem
  discount : ℚ
  taxRate : ℚ
  notes : String
  status : Status
deriving DecidableEq

/-- JavaScript `Math.round`: round half toward positive infinity,
that is, the floor of `x + 1/2` (stated via the executable `Rat.floor`). -/
def jsRound (x : ℚ) : ℤ := (x + 1/2).floor

/-- All the local values computed by the totals blocks.  The form's
`useMemo` returns the subset `{subtotal, totalTax, roundOff, grandTotal}`;
we expose every local so each can be specified. -/
structure Totals where
  grossTotal : ℚ
  subtotal : ℚ
  totalTax : ℚ
  totalAfterDiscount : ℚ
  grandTotal : ℚ
  roundOff : ℚ
deriving DecidableEq

/-- The totals `useMemo` of `QuotationForm` (part_002 lines 108-121). -/
def formTotals (quote : Quotation) : Totals :=
  let taxDivisor := 1 + (if quote.taxRate > 0 then quote.taxRate / 100 else 0)
  let grossTotal := quote.lineItems.foldl
    (fun acc item => acc + item.quantity * item.unitAmount) 0
  let subtotal := if taxDivisor > 1 then grossTotal / taxDivisor else grossTotal
  let totalTax := grossTotal - subtotal
  let totalAfterDiscount := grossTotal - quote.discount
  let grandTotal : ℚ := (jsRound totalAfterDiscount : ℤ)
  let roundOff := grandTotal - totalAfterDiscount
  ⟨grossTotal, subtotal, totalTax, totalAfterDiscount, grandTotal, roundOff⟩

/-- The totals block of `QuotationPreview` (QuotationPreview.tsx lines 11-17). -/
def previewTotals (quote : Quotation) : Totals :=
  let taxDivisor := 1 + (if quote.taxRate > 0 then quote.taxRate / 100 else 0)
  let grossTotal := quote.lineItems.foldl
    (fun acc item => acc + item.quantity * item.unitAmount) 0
  let subtotal := if taxDivisor > 1 then grossTotal / taxDivisor else grossTotal
  let totalTax := grossTotal - subtotal
  let totalAfterDiscount := grossTotal - quote.discount
  let grandTotal : ℚ := (jsRound totalAfterDiscount : ℤ)
  let roundOff := grandTotal - totalAfterDiscount
  ⟨grossTotal, subtotal, totalTax, totalAfterDiscount, grandTotal, roundOff⟩

/-- The grand total shown on a `QuoteCard` (part_000 lines 74-76). -/
def cardGrandTotal (quote : Quotation) : ℚ :=
  let grossTotal := quote.lineItems.foldl
    (fun acc item => acc + item.quantity * item.unitAmount) 0
  let totalAfterDiscount := grossTotal - quote.discount
  (jsRound totalAfterDiscount : ℤ)

/-- JavaScript `String.prototype.padStart(n, c)`: left-pad with `c` up to
length `n`; a string already at least `n` long is returned unchanged. -/
def padStart (s : String) (n : Nat) (c : Char) : String :=
  if n ≤ s.length then s else String.mk (List.replicate (n - s.length) c) ++ s

/-- JavaScript `String.prototype.slice(-2)`: the last two characters
(the whole string when it is shorter than two characters). -/
def sliceLastTwo (s : String) : String :=
  s.drop (s.length - 2)

/-- The current calendar date as the generator reads it from `new Date()`:
`getDate()`, `getMonth()` (0-based) and `getFullYear()`. -/
structure CurrentDate where
  getDate : Nat
  getMonth : Nat
  getFullYear : Nat
deriving DecidableEq

/-- The date prefix `QT-DDMMYY` built by `generateQuoteNumber`. -/
def datePrefix (date : CurrentDate) : String :=
  let day := padStart (toString date.getDate) 2 '0'
  let month := padStart (toString (date.getMonth + 1)) 2 '0'
  let year := sliceLastTwo (toString date.getFullYear)
  "QT-" ++ day ++ month ++ year

/-- JavaScript `String.prototype.startsWith`: the search string is a prefix
of the receiver (stated on the character lists, where it is structural). -/
def jsStartsWith (s searchString : String) : Bool :=
  searchString.data.isPrefixOf s.data

/-- `generateQuoteNumber` (part_002 lines 13-25), with `new Date()` made an
explicit argument. -/
def generateQuoteNumber (existingQuotes : List Quotation) (date : CurrentDate) :
    String :=
  let prefixStr := datePrefix date
  let todayQuotes := existingQuotes.filter (fun q => jsStartsWith q.quoteNumber prefixStr)
  let nextSerial := todayQuotes.length + 1
  let serialNumber := padStart (toString nextSerial) 4 '0'
  prefixStr ++ "-" ++ serialNumber

/-- `CompanyDetails` from `types.ts`; the optional fields (`?`) are `Option`s. -/
structure CompanyDetails where
  name : String
  address : String
  phone : String
  email : String
  bankName : String
  accountHolder : String
  accountNumber : String
  ifscCode : String
  upiId : String
  upiQrCode : Option String
  defaultNotes : Option String
  defaultTaxRate : Option ℚ
  password : Option String
deriving DecidableEq

/-- `defaultCompanyDetails` from the App component. -/
def defaultCompanyDetails : CompanyDetails where
  name := "HINDUSTAN TYRES"
  address := "123 Tyre Avenue, Auto City, 54321"
  phone := "+91 98765 43210"
  email := "sales@hindustantyres.com"
  bankName := "State Bank of India"
  accountHolder := "HINDUSTAN TYRES"
  accountNumber := "12345678901"
  ifscCode := "SBIN0001234"
  upiId := "hindustantyres@upi"
  upiQrCode := some ""
  defaultNotes := some "1. All prices are inclusive of taxes.\n2. Warranty as per manufacturer terms.\n3. This quotation is valid for 7 days."
  defaultTaxRate := some 18
  password := none

/-- A `CompanyDetails` record as parsed back from storage: any field may be
absent, which is what makes the spread-merge with defaults meaningful. -/
structure SavedCompanyDetails where
  name : Option String
  address : Option String
  phone : Option String
  email : Option String
  bankName : Option String
  accountHolder : Option String
  accountNumber : Option String
  ifscCode : Option String
  upiId : Option String
  upiQrCode : Option String
  defaultNotes : Option String
  defaultTaxRate : Option ℚ
  password : Option String
deriving DecidableEq

/-- The all-absent parsed record. -/
def emptySaved : SavedCompanyDetails :=
  ⟨none, none, none, none, none, none, none, none, none, none, none, none, none⟩

/-- The JavaScript spread merge `{ ...defaultCompanyDetails, ...parsed }`:
every key present in the parsed record overrides the default. -/
def mergeDetails (defaults : CompanyDetails) (saved : SavedCompanyDetails) :
    CompanyDetails where
  name := saved.name.getD defaults.name
  address := saved.address.getD defaults.address
  phone := saved.phone.getD defaults.phone
  email := saved.email.getD defaults.email
  bankName := saved.bankName.getD defaults.bankName
  accountHolder := saved.accountHolder.getD defaults.accountHolder
  accountNumber := saved.accountNumber.getD defaults.accountNumber
  ifscCode := saved.ifscCode.getD defaults.ifscCode
  upiId := saved.upiId.getD defaults.upiId
  upiQrCode := saved.upiQrCode.orElse (fun _ => defaults.upiQrCode)
  defaultNotes := saved.defaultNotes.orElse (fun _ => defaults.defaultNotes)
  defaultTaxRate := saved.defaultTaxRate.orElse (fun _ => defaults.defaultTaxRate)
  password := saved.password.orElse (fun _ => defaults.password)

/-- JavaScript truthiness of `details.password` (`!!details.password`):
`undefined` and the empty string are falsy, every other string truthy. -/
def passwordIsSet : Option String → Bool
  | none => false
  | some s => !(s == "")

/-- What the startup `useEffect` reads from storage when reading and parsing
succeed: the two parsed localStorage records (absent when the key is unset)
and the raw sessionStorage item. -/
structure StoredData where
  tyreQuotes : Option (List Quotation)
  companyDetails : Option SavedCompanyDetails
  sessionItem : Option String
deriving DecidableEq

/-- The component state the startup `useEffect` establishes. -/
structure AppInitState where
  quotes : List Quotation
  companyDetails : CompanyDetails
  isAuthenticated : Bool
  isAppReady : Bool
deriving DecidableEq

/-- The details value computed on the successful load path:
merge with defaults when a saved record exists, else the defaults. -/
def loadedDetails (data : StoredData) : CompanyDetails :=
  match data.companyDetails with
  | some saved => mergeDetails defaultCompanyDetails saved
  | none => defaultCompanyDetails

/-- The startup `useEffect` of the App component (QuotationPreview.tsx
lines 164-200).  Reading/parsing is abstracted as an `Except`: `ok` carries
what was read, `error` is any thrown exception, landing in the catch block
that falls back to the defaults and fails open. -/
def appInit (stored : Except String StoredData) : AppInitState :=
  match stored with
  | Except.ok data =>
    let details := loadedDetails data
    { quotes := data.tyreQuotes.getD []
      companyDetails := details
      isAuthenticated :=
        if passwordIsSet details.password then data.sessionItem == some "true"
        else true
      isAppReady := true }
  | Except.error _ =>
    { quotes := []
      companyDetails := defaultCompanyDetails
      isAuthenticated := true
      isAppReady := true }

/-- The login form's component state in `LoginScreen`. -/
structure LoginForm where
  password : String
  error : String
deriving DecidableEq

/-- The App-level session state touched by login: the `isAuthenticated`
React state and the sessionStorage item behind it. -/
structure AppSession where
  isAuthenticated : Bool
  sessionItem : Option String
deriving DecidableEq

/-- `handleLoginSuccess` (App): set the session marker and authenticate. -/
def handleLoginSuccess (_s : AppSession) : AppSession :=
  { isAuthenticated := true, sessionItem := some "true" }

/-- `LoginScreen.handleSubmit` (LoginScreen.tsx lines 12-21) combined with
the `onLoginSuccess` callback it invokes on success: exact string equality
against the stored password; on failure the error is set and the input is
cleared while the app session is untouched. -/
def handleSubmit (storedPassword : String) (form : LoginForm) (app : AppSession) :
    LoginForm × AppSession :=
  if form.password = storedPassword then
    ({ form with error := "" }, handleLoginSuccess app)
  else
    ({ password := "", error := "Incorrect password. Please try again." }, app)

/-- JavaScript `Array.prototype.findIndex` with its running index, returning
`none` instead of `-1`. -/
def jsFindIndexAux (p : α → Bool) : List α → Nat → Option Nat
  | [], _ => none
  | a :: as, i => if p a then some i else jsFindIndexAux p as (i + 1)

/-- JavaScript `Array.prototype.findIndex` (as an `Option`). -/
def jsFindIndex (p : α → Bool) (l : List α) : Option Nat :=
  jsFindIndexAux p l 0

/-- `handleSaveQuote` (part_001 lines 72-84): replace the first record with
the same `id` in place, else append at the end. -/
def handleSaveQuote (quotes : List Quotation) (quote : Quotation) :
    List Quotation :=
  match jsFindIndex (fun q => q.id == quote.id) quotes with
  | some existingIndex => quotes.set existingIndex quote
  | none => quotes ++ [quote]

/-- `handleDeleteQuote` (part_001 lines 99-104), after the operator
confirms: keep exactly the records whose `id` differs. -/
def handleDeleteQuote (quotes : List Quotation) (id : String) : List Quotation :=
  quotes.filter (fun q => q.id != id)

/-- The reduce expression computing `grossTotal`, shared verbatim by the
form, the preview and the quote card. -/
def grossTotalOf (items : List LineItem) : ℚ :=
  items.foldl (fun acc item => acc + item.quantity * item.unitAmount) 0

/-- The number of existing quotes whose `quoteNumber` starts with the date
prefix (the length of `todayQuotes` inside `generateQuoteNumber`). -/
def sameDayCount (qs : List Quotation) (date : CurrentDate) : Nat :=
  (qs.filter (fun q => jsStartsWith q.quoteNumber (datePrefix date))).length

/-- Build a quotation record for concrete test inputs; the fields the core
logic never reads are blank. -/
def mkQuote (quoteId quoteNumber : String) (items : List LineItem)
    (discount taxRate : ℚ) : Quotation where
  id := quoteId
  quoteNumber := quoteNumber
  date := ""
  customerName := ""
  customerPhone := ""
  customerEmail := ""
  customerAddress := ""
  vehicleMake := ""
  vehicleModel := ""
  vehicleYear := ""
  lineItems := items
  discount := discount
  taxRate := taxRate
  notes := ""
  status := Status.Draft

/- ### Helper lemmas -/

/-- `jsRound` is the floor of `x + 1/2`. -/
theorem jsRound_floor (x : ℚ) : jsRound x = ⌊x + 1/2⌋ := by
  rw [jsRound, Rat.floor_def', Rat.floor_def]

/-- Evaluating the shared gross-total fold: it accumulates the sum of the
line extensions onto the accumulator. -/
theorem grossTotal_foldl (items : List LineItem) (acc : ℚ) :
    items.foldl (fun acc item => acc + item.quantity * item.unitAmount) acc =
      acc + (items.map fun item => item.quantity * item.unitAmount).sum := by
  induction items generalizing acc with
  | nil => simp
  | cons a l ih => simp [List.foldl_cons, ih, add_assoc]

/-- The gross total is the sum of the line extensions. -/
theorem grossTotalOf_eq_sum (items : List LineItem) :
    grossTotalOf items = (items.map fun item => item.quantity * item.unitAmount).sum := by
  rw [grossTotalOf, grossTotal_foldl, zero_add]

/- ### Claim C1 -/

theorem formTotals_grossTotal (q : Quotation) :
    (formTotals q).grossTotal = grossTotalOf q.lineItems := rfl

theorem formTotals_subtotal (q : Quotation) :
    (formTotals q).subtotal =
      if 1 + (if q.taxRate > 0 then q.taxRate / 100 else 0) > 1 then
        grossTotalOf q.lineItems / (1 + (if q.taxRate > 0 then q.taxRate / 100 else 0))
      else grossTotalOf q.lineItems := rfl

theorem formTotals_totalTax (q : Quotation) :
    (formTotals q).totalTax = (formTotals q).grossTotal - (formTotals q).subtotal := rfl

theorem formTotals_grandTotal (q : Quotation) :
    (formTotals q).grandTotal = ((jsRound (grossTotalOf q.lineItems - q.discount) : ℤ) : ℚ) := rfl

theorem formTotals_roundOff (q : Quotation) :
    (formTotals q).roundOff =
      (formTotals q).grandTotal - (grossTotalOf q.lineItems - q.discount) := rfl

theorem subtotal_of_pos (q : Quotation) (h : 0 < q.taxRate) :
    (formTotals q).subtotal = (formTotals q).grossTotal / (1 + q.taxRate / 100) := by
  have h1 : (1 : ℚ) < 1 + q.taxRate / 100 := by
    have : (0 : ℚ) < q.taxRate / 100 := div_pos h (by norm_num)
    linarith
  rw [formTotals_subtotal, formTotals_grossTotal]
  simp only [gt_iff_lt, if_pos h, if_pos h1]

theorem subtotal_of_nonpos (q : Quotation) (h : ¬ 0 < q.taxRate) :
    (formTotals q).subtotal = (formTotals q).grossTotal := by
  rw [formTotals_subtotal, formTotals_grossTotal]
  simp [if_neg h]

/-- Claim C1: the Calculator's contract. -/
theorem C1_calculator (q : Quotation) (hD : 0 ≤ q.discount) (hR : 0 ≤ q.taxRate) :
    (formTotals q).grossTotal = (q.lineItems.map fun item => item.quantity * item.unitAmount).sum
    ∧ (0 < q.taxRate → (formTotals q).subtotal = (formTotals q).grossTotal / (1 + q.taxRate / 100))
    ∧ (¬ 0 < q.taxRate → (formTotals q).subtotal = (formTotals q).grossTotal)
    ∧ (formTotals q).totalTax = (formTotals q).grossTotal - (formTotals q).subtotal
    ∧ (∃ n : ℤ, (formTotals q).grandTotal = (n : ℚ))
    ∧ (formTotals q).grandTotal = ((⌊(formTotals q).grossTotal - q.discount + 1/2⌋ : ℤ) : ℚ)
    ∧ |(formTotals q).grandTotal - ((formTotals q).grossTotal - q.discount)| ≤ 1/2
    ∧ (formTotals q).roundOff = (formTotals q).grandTotal - ((formTotals q).grossTotal - q.discount)
    ∧ ∃ qneg : Quotation, 0 ≤ qneg.discount ∧ 0 ≤ qneg.taxRate ∧ (formTotals qneg).grandTotal < 0 := by
  refine ⟨?_, subtotal_of_pos q, subtotal_of_nonpos q, formTotals_totalTax q, ?_, ?_, ?_, ?_, ?_⟩
  · rw [formTotals_grossTotal, grossTotalOf_eq_sum]
  · exact ⟨jsRound (grossTotalOf q.lineItems - q.discount), formTotals_grandTotal q⟩
  · rw [formTotals_grandTotal, jsRound_floor, formTotals_grossTotal]
  · rw [formTotals_grandTotal, jsRound_floor, formTotals_grossTotal]
    have hle := Int.floor_le (grossTotalOf q.lineItems - q.discount + 1/2)
    have hlt := Int.sub_one_lt_floor (grossTotalOf q.lineItems - q.discount + 1/2)
    rw [abs_le]
    constructor <;> linarith
  · rw [formTotals_roundOff, formTotals_grossTotal]
  · refine ⟨mkQuote "q" "" [] 5 0, by norm_num [mkQuote], by norm_num [mkQuote], ?_⟩
    rw [formTotals_grandTotal, jsRound_floor]
    norm_num [mkQuote, grossTotalOf]

theorem C1_calculator_witness :
    (formTotals (mkQuote "q" "" [⟨"li1", "tyre", 4, 2500⟩] 500 18)).grossTotal
        = ([⟨"li1", "tyre", 4, 2500⟩].map fun item : LineItem => item.quantity * item.unitAmount).sum
    ∧ (0 < (mkQuote "q" "" [⟨"li1", "tyre", 4, 2500⟩] 500 18).taxRate →
        (formTotals (mkQuote "q" "" [⟨"li1", "tyre", 4, 2500⟩] 500 18)).subtotal
          = (formTotals (mkQuote "q" "" [⟨"li1", "tyre", 4, 2500⟩] 500 18)).grossTotal
              / (1 + (mkQuote "q" "" [⟨"li1", "tyre", 4, 2500⟩] 500 18).taxRate / 100))
    ∧ (formTotals (mkQuote "q" "" [⟨"li1", "tyre", 4, 2500⟩] 500 18)).grandTotal = 9500 := by
  have h := C1_calculator (mkQuote "q" "" [⟨"li1", "tyre", 4, 2500⟩] 500 18)
    (by norm_num [mkQuote]) (by norm_num [mkQuote])
  refine ⟨h.1, fun hp => h.2.1 hp, ?_⟩
  rw [formTotals_grandTotal, jsRound_floor]
  norm_num [mkQuote, grossTotalOf]

/- ### Claim C2 -/

theorem string_append_assoc (a b c : String) : a ++ b ++ c = a ++ (b ++ c) :=
  String.ext (by simp [String.data_append, List.append_assoc])

/-- Claim C2: the quote-number generator's contract. -/
theorem C2_generateQuoteNumber (qs : List Quotation) (date : CurrentDate) :
    generateQuoteNumber qs date
      = datePrefix date ++ "-" ++ padStart (toString (sameDayCount qs date + 1)) 4 '0'
    ∧ (sameDayCount qs date = 0 → generateQuoteNumber qs date = datePrefix date ++ "-0001")
    ∧ (sameDayCount qs date = 1 → generateQuoteNumber qs date = datePrefix date ++ "-0002") := by
  have e : generateQuoteNumber qs date
      = datePrefix date ++ "-" ++ padStart (toString (sameDayCount qs date + 1)) 4 '0' := rfl
  refine ⟨e, ?_, ?_⟩
  · intro h
    rw [e, h]
    show datePrefix date ++ "-" ++ "0001" = datePrefix date ++ "-0001"
    rw [string_append_assoc]
    exact congrArg (fun s => datePrefix date ++ s) (by decide)
  · intro h
    rw [e, h]
    show datePrefix date ++ "-" ++ "0002" = datePrefix date ++ "-0002"
    rw [string_append_assoc]
    exact congrArg (fun s => datePrefix date ++ s) (by decide)

theorem C2_generateQuoteNumber_witness :
    sameDayCount ([] : List Quotation) ⟨11, 9, 2026⟩ = 0
    ∧ generateQuoteNumber [] ⟨11, 9, 2026⟩ = "QT-111026-0001"
    ∧ sameDayCount [mkQuote "a" "QT-111026-0001" [] 0 0] ⟨11, 9, 2026⟩ = 1
    ∧ generateQuoteNumber [mkQuote "a" "QT-111026-0001" [] 0 0] ⟨11, 9, 2026⟩
        = "QT-111026-0002" := by
  refine ⟨by decide, ?_, by decide, ?_⟩
  · exact ((C2_generateQuoteNumber [] ⟨11, 9, 2026⟩).2.1 (by decide)).trans (by decide)
  · exact ((C2_generateQuoteNumber [mkQuote "a" "QT-111026-0001" [] 0 0]
      ⟨11, 9, 2026⟩).2.2 (by decide)).trans (by decide)

/- ### Claim C3 -/

/-- Claim C3: the session gate unlocks exactly on exact case-sensitive
equality with the stored secret; on failure the state stays locked, the
input is cleared and an error is set; "ABC" does not unlock secret "abc". -/
theorem C3_sessionGate (stored : String) (form : LoginForm) (app : AppSession)
    (happ : app.isAuthenticated = false) :
    (((handleSubmit stored form app).2.isAuthenticated = true
        ∧ (handleSubmit stored form app).2.sessionItem = some "true")
      ↔ form.password = stored)
    ∧ (form.password ≠ stored →
        (handleSubmit stored form app).2 = app
        ∧ (handleSubmit stored form app).1.password = ""
        ∧ (handleSubmit stored form app).1.error = "Incorrect password. Please try again.")
    ∧ (handleSubmit "abc" ⟨"ABC", ""⟩ ⟨false, none⟩).2.isAuthenticated = false := by
  by_cases h : form.password = stored
  · refine ⟨?_, fun hne => absurd h hne, by decide⟩
    simp [handleSubmit, h, handleLoginSuccess]
  · refine ⟨?_, fun _ => ?_, by decide⟩
    · simp [handleSubmit, h, happ]
    · simp [handleSubmit, h]

theorem C3_sessionGate_witness :
    (handleSubmit "abc" ⟨"abc", ""⟩ ⟨false, none⟩).2.isAuthenticated = true
    ∧ (handleSubmit "abc" ⟨"abc", ""⟩ ⟨false, none⟩).2.sessionItem = some "true" :=
  (C3_sessionGate "abc" ⟨"abc", ""⟩ ⟨false, none⟩ rfl).1.mpr rfl

/- ### Claim C4 -/

/-- Claim C4: the gate's initial state is unlocked unconditionally when no
password is configured in the loaded details, and otherwise unlocked
exactly when the session marker is present. -/
theorem C4_initialAuth (data : StoredData) :
    (passwordIsSet (loadedDetails data).password = false →
        (appInit (Except.ok data)).isAuthenticated = true)
    ∧ (passwordIsSet (loadedDetails data).password = true →
        ((appInit (Except.ok data)).isAuthenticated = true
          ↔ data.sessionItem = some "true")) := by
  constructor
  · intro h
    simp [appInit, h]
  · intro h
    simp [appInit, h]

theorem C4_initialAuth_witness :
    (appInit (Except.ok ⟨none, none, none⟩)).isAuthenticated = true
    ∧ (appInit (Except.ok
        ⟨none, some { emptySaved with password := some "pw" }, some "true"⟩)).isAuthenticated
        = true := by
  constructor
  · exact (C4_initialAuth ⟨none, none, none⟩).1 (by decide)
  · exact ((C4_initialAuth
      ⟨none, some { emptySaved with password := some "pw" }, some "true"⟩).2
        (by decide)).mpr rfl

/- ### Claim C5 -/

/-- Claim C5: tax is backed out of the gross exactly when the rate is
strictly positive. -/
theorem C5_taxBackout (q : Quotation) :
    (0 < q.taxRate →
        (formTotals q).subtotal * (1 + q.taxRate / 100) = (formTotals q).grossTotal)
    ∧ (q.taxRate = 0 →
        (formTotals q).subtotal = (formTotals q).grossTotal
          ∧ (formTotals q).totalTax = 0)
    ∧ (q.taxRate ≤ 0 → (formTotals q).subtotal = (formTotals q).grossTotal) := by
  refine ⟨?_, ?_, ?_⟩
  · intro h
    rw [subtotal_of_pos q h]
    have hpos : (0 : ℚ) < 1 + q.taxRate / 100 := by
      have : (0 : ℚ) < q.taxRate / 100 := div_pos h (by norm_num)
      linarith
    exact div_mul_cancel₀ _ (ne_of_gt hpos)
  · intro h
    have hnot : ¬ 0 < q.taxRate := by rw [h]; exact lt_irrefl 0
    exact ⟨subtotal_of_nonpos q hnot,
      by rw [formTotals_totalTax, subtotal_of_nonpos q hnot, sub_self]⟩
  · intro h
    exact subtotal_of_nonpos q (not_lt.mpr h)

theorem C5_taxBackout_witness :
    (formTotals (mkQuote "q" "" [⟨"li1", "tyre", 4, 2500⟩] 0 18)).subtotal
        * (1 + (mkQuote "q" "" [⟨"li1", "tyre", 4, 2500⟩] 0 18).taxRate / 100)
      = (formTotals (mkQuote "q" "" [⟨"li1", "tyre", 4, 2500⟩] 0 18)).grossTotal :=
  (C5_taxBackout (mkQuote "q" "" [⟨"li1", "tyre", 4, 2500⟩] 0 18)).1
    (by norm_num [mkQuote])

/- ### Claim C6 -/

/-- Claim C6: the calculator is pure (same input, same output) and the
form, preview and quote-card implementations agree on every input. -/
theorem C6_implementationsAgree (q : Quotation) :
    formTotals q = formTotals q
    ∧ previewTotals q = formTotals q
    ∧ cardGrandTotal q = (formTotals q).grandTotal :=
  ⟨rfl, rfl, rfl⟩

/- ### Claim C10 -/

/-- Claim C10: any storage read/parse failure at startup falls back to an
empty collection and default details, and fails open (authenticated). -/
theorem C10_failOpen (err : String) :
    appInit (Except.error err)
      = { quotes := []
          companyDetails := defaultCompanyDetails
          isAuthenticated := true
          isAppReady := true } := rfl

/- ### Claim C7 -/

/-- Claim C7: the gross total is the sum of the line extensions and is
invariant under permutation of the line-item list. -/
theorem C7_grossTotal_perm (items permuted : List LineItem)
    (hnn : ∀ item ∈ items, 0 ≤ item.quantity ∧ 0 ≤ item.unitAmount)
    (hperm : items.Perm permuted) :
    grossTotalOf items = (items.map fun item => item.quantity * item.unitAmount).sum
    ∧ grossTotalOf permuted = grossTotalOf items := by
  refine ⟨grossTotalOf_eq_sum items, ?_⟩
  rw [grossTotalOf_eq_sum, grossTotalOf_eq_sum]
  exact ((hperm.map fun item => item.quantity * item.unitAmount).sum_eq).symm

theorem C7_grossTotal_perm_witness :
    grossTotalOf [⟨"a", "x", 4, 2500⟩, ⟨"b", "y", 2, 100⟩]
      = ([⟨"a", "x", 4, 2500⟩, ⟨"b", "y", 2, 100⟩].map
          fun item : LineItem => item.quantity * item.unitAmount).sum
    ∧ grossTotalOf [⟨"b", "y", 2, 100⟩, ⟨"a", "x", 4, 2500⟩]
      = grossTotalOf [⟨"a", "x", 4, 2500⟩, ⟨"b", "y", 2, 100⟩] :=
  C7_grossTotal_perm [⟨"a", "x", 4, 2500⟩, ⟨"b", "y", 2, 100⟩]
    [⟨"b", "y", 2, 100⟩, ⟨"a", "x", 4, 2500⟩]
    (by intro item h; fin_cases h <;> norm_num)
    (List.Perm.swap _ _ _)

/- ### Claims C8 and C9: store operations -/

theorem jsFindIndexAux_shift (p : α → Bool) (l : List α) (i : Nat) :
    jsFindIndexAux p l i = (jsFindIndex p l).map (· + i) := by
  induction l generalizing i with
  | nil => rfl
  | cons a l ih =>
    rw [jsFindIndex, jsFindIndexAux, jsFindIndexAux]
    by_cases h : p a
    · simp [h]
    · simp only [h, if_false, Bool.false_eq_true, ih, Option.map_map]
      cases jsFindIndex p l with
      | none => rfl
      | some v =>
        simp only [Option.map_some', Function.comp_apply]
        congr 1
        omega

theorem jsFindIndex_cons (p : α → Bool) (a : α) (l : List α) :
    jsFindIndex p (a :: l) = if p a then some 0 else (jsFindIndex p l).map (· + 1) := by
  rw [jsFindIndex, jsFindIndexAux]
  by_cases h : p a
  · simp [h]
  · simp [h, jsFindIndexAux_shift]

theorem jsFindIndex_eq_none_iff (p : α → Bool) (l : List α) :
    jsFindIndex p l = none ↔ ∀ x ∈ l, p x = false := by
  induction l with
  | nil => simp [jsFindIndex, jsFindIndexAux]
  | cons a l ih =>
    rw [jsFindIndex_cons]
    by_cases h : p a
    · simp [h]
    · simp [h, ih, Bool.not_eq_true]

theorem jsFindIndex_some_spec (p : α → Bool) (l : List α) (i : Nat)
    (hfound : jsFindIndex p l = some i) :
    (∃ x, l.get? i = some x ∧ p x = true)
    ∧ ∀ j, j < i → ∀ y, l.get? j = some y → p y = false := by
  induction l generalizing i with
  | nil => simp [jsFindIndex, jsFindIndexAux] at hfound
  | cons a l ih =>
    rw [jsFindIndex_cons] at hfound
    by_cases h : p a
    · rw [if_pos h] at hfound
      obtain rfl : (0 : Nat) = i := Option.some.inj hfound
      exact ⟨⟨a, rfl, h⟩, fun j hj => absurd hj (Nat.not_lt_zero j)⟩
    · rw [if_neg h] at hfound
      obtain ⟨i', hi', rfl⟩ := Option.map_eq_some'.mp hfound
      obtain ⟨⟨x, hx, hpx⟩, hbefore⟩ := ih i' hi'
      refine ⟨⟨x, hx, hpx⟩, ?_⟩
      intro j hj y hy
      cases j with
      | zero =>
        obtain rfl : a = y := Option.some.inj hy
        exact Bool.not_eq_true _ ▸ h
      | succ k =>
        exact hbefore k (by omega) y hy

theorem get?_set_of_ne (l : List α) (i j : Nat) (a : α) (h : i ≠ j) :
    (l.set i a).get? j = l.get? j := by
  induction l generalizing i j with
  | nil => simp
  | cons b l ih =>
    cases i with
    | zero =>
      cases j with
      | zero => exact absurd rfl h
      | succ k => simp [List.set]
    | succ i' =>
      cases j with
      | zero => simp [List.set]
      | succ k => simp only [List.set, List.get?]; exact ih i' k (by omega)

theorem get?_set_self (l : List α) (i : Nat) (a : α) (h : i < l.length) :
    (l.set i a).get? i = some a := by
  induction l generalizing i with
  | nil => simp at h
  | cons b l ih =>
    cases i with
    | zero => rfl
    | succ i' => exact ih i' (by simpa using h)

/-- Claim C8: saving replaces the first record carrying the same identifier
in place (same length, all other positions untouched), and appends a quote
with a fresh identifier, which then occurs exactly once, unmodified. -/
theorem C8_saveQuote (quotes : List Quotation) (quote : Quotation) :
    (∀ i, jsFindIndex (fun q => q.id == quote.id) quotes = some i →
        handleSaveQuote quotes quote = quotes.set i quote
        ∧ (handleSaveQuote quotes quote).length = quotes.length
        ∧ (handleSaveQuote quotes quote).get? i = some quote
        ∧ (∃ r, quotes.get? i = some r ∧ r.id = quote.id)
        ∧ (∀ j, j < i → ∀ r, quotes.get? j = some r → r.id ≠ quote.id)
        ∧ (∀ j, j ≠ i → (handleSaveQuote quotes quote).get? j = quotes.get? j))
    ∧ ((∀ r ∈ quotes, r.id ≠ quote.id) →
        handleSaveQuote quotes quote = quotes ++ [quote]
        ∧ (handleSaveQuote quotes quote).filter (fun r => r.id == quote.id) = [quote]) := by
  constructor
  · intro i hfound
    have hsave : handleSaveQuote quotes quote = quotes.set i quote := by
      rw [handleSaveQuote, hfound]
    obtain ⟨⟨x, hx, hpx⟩, hbefore⟩ := jsFindIndex_some_spec _ _ _ hfound
    have hlt : i < quotes.length := (List.get?_eq_some.mp hx).1
    refine ⟨hsave, ?_, ?_, ⟨x, hx, ?_⟩, ?_, ?_⟩
    · rw [hsave, List.length_set]
    · rw [hsave]; exact get?_set_self quotes i quote hlt
    · exact eq_of_beq hpx
    · intro j hj r hr
      have := hbefore j hj r hr
      intro heq
      rw [heq] at this
      simp at this
    · intro j hne
      rw [hsave]
      exact get?_set_of_ne quotes i j quote (fun h => hne h.symm)
  · intro hfresh
    have hnone : jsFindIndex (fun q => q.id == quote.id) quotes = none := by
      rw [jsFindIndex_eq_none_iff]
      intro x hx
      simpa using hfresh x hx
    have hsave : handleSaveQuote quotes quote = quotes ++ [quote] := by
      rw [handleSaveQuote, hnone]
    refine ⟨hsave, ?_⟩
    rw [hsave, List.filter_append]
    have h1 : quotes.filter (fun r => r.id == quote.id) = [] := by
      rw [List.filter_eq_nil_iff]
      intro a ha
      simpa using hfresh a ha
    have h2 : [quote].filter (fun r => r.id == quote.id) = [quote] := by
      simp
    rw [h1, h2, List.nil_append]

theorem C8_saveQuote_witness :
    handleSaveQuote [mkQuote "a" "N1" [] 0 0, mkQuote "b" "N2" [] 0 0]
        (mkQuote "a" "N1-edited" [] 0 0)
      = [mkQuote "a" "N1-edited" [] 0 0, mkQuote "b" "N2" [] 0 0]
    ∧ handleSaveQuote [mkQuote "a" "N1" [] 0 0, mkQuote "b" "N2" [] 0 0]
        (mkQuote "c" "N3" [] 0 0)
      = [mkQuote "a" "N1" [] 0 0, mkQuote "b" "N2" [] 0 0, mkQuote "c" "N3" [] 0 0]
    ∧ (handleSaveQuote [mkQuote "a" "N1" [] 0 0, mkQuote "b" "N2" [] 0 0]
          (mkQuote "c" "N3" [] 0 0)).filter
        (fun r => r.id == (mkQuote "c" "N3" [] 0 0).id)
      = [mkQuote "c" "N3" [] 0 0] := by
  have hrep := (C8_saveQuote [mkQuote "a" "N1" [] 0 0, mkQuote "b" "N2" [] 0 0]
    (mkQuote "a" "N1-edited" [] 0 0)).1 0 (by decide)
  have hfresh := (C8_saveQuote [mkQuote "a" "N1" [] 0 0, mkQuote "b" "N2" [] 0 0]
    (mkQuote "c" "N3" [] 0 0)).2 (by decide)
  exact ⟨hrep.1.trans rfl, hfresh.1.trans rfl, hfresh.2⟩

theorem filter_ne_id_length (targetId : String) :
    ∀ l : List Quotation, (l.map (fun q => q.id)).Nodup →
      (∃ r ∈ l, r.id = targetId) →
      (l.filter (fun q => q.id != targetId)).length + 1 = l.length := by
  intro l
  induction l with
  | nil => rintro _ ⟨r, hr, _⟩; exact absurd hr (List.not_mem_nil r)
  | cons a l ih =>
    intro hnd hex
    rw [List.map_cons, List.nodup_cons] at hnd
    obtain ⟨hna, hndl⟩ := hnd
    by_cases ha : a.id = targetId
    · have hfa : (a.id != targetId) = false := by simp [ha]
      have hall : ∀ x ∈ l, (x.id != targetId) = true := by
        intro x hx
        have : x.id ≠ a.id := by
          intro heq
          exact hna (by rw [← heq]; exact List.mem_map_of_mem (fun q => q.id) hx)
        simp [ha ▸ this]
      rw [List.filter_cons_of_neg (by simp [hfa]), List.filter_eq_self.mpr hall]
      simp
    · have hta : (a.id != targetId) = true := by simp [ha]
      obtain ⟨r, hr, hrid⟩ := hex
      have hrl : r ∈ l := by
        rcases List.mem_cons.mp hr with rfl | h
        · exact absurd hrid ha
        · exact h
      rw [List.filter_cons_of_pos (by simp [hta])]
      have := ih hndl ⟨r, hrl, hrid⟩
      simp only [List.length_cons]
      omega

/-- Claim C9: deleting an identifier removes exactly the records with that
identifier: others remain, in order, and when identifiers are unique and
the identifier is present exactly one record disappears. -/
theorem C9_deleteQuote (quotes : List Quotation) (targetId : String) :
    (∀ r ∈ quotes, r.id ≠ targetId → r ∈ handleDeleteQuote quotes targetId)
    ∧ (∀ r ∈ handleDeleteQuote quotes targetId, r ∈ quotes ∧ r.id ≠ targetId)
    ∧ (handleDeleteQuote quotes targetId).Sublist quotes
    ∧ ((quotes.map (fun q => q.id)).Nodup →
        (∃ r ∈ quotes, r.id = targetId) →
        (handleDeleteQuote quotes targetId).length + 1 = quotes.length) := by
  refine ⟨?_, ?_, List.filter_sublist quotes, filter_ne_id_length targetId quotes⟩
  · intro r hr hne
    exact List.mem_filter.mpr ⟨hr, by simp [hne]⟩
  · intro r hr
    obtain ⟨hmem, hp⟩ := List.mem_filter.mp hr
    exact ⟨hmem, by simpa using hp⟩

theorem C9_deleteQuote_witness :
    (handleDeleteQuote [mkQuote "a" "N1" [] 0 0, mkQuote "b" "N2" [] 0 0] "a").length + 1
      = ([mkQuote "a" "N1" [] 0 0, mkQuote "b" "N2" [] 0 0] : List Quotation).length
    ∧ mkQuote "b" "N2" [] 0 0
        ∈ handleDeleteQuote [mkQuote "a" "N1" [] 0 0, mkQuote "b" "N2" [] 0 0] "a" := by
  have h := C9_deleteQuote [mkQuote "a" "N1" [] 0 0, mkQuote "b" "N2" [] 0 0] "a"
  refine ⟨h.2.2.2 (by decide) ⟨mkQuote "a" "N1" [] 0 0, List.mem_cons_self _ _, rfl⟩, ?_⟩
  exact h.1 (mkQuote "b" "N2" [] 0 0)
    (List.mem_cons_of_mem _ (List.mem_cons_self _ _)) (by decide)

end TyreQuote
